import Mathlib

/-!
Verification of the preprocessing / label-masking / collation pipeline of a
supervised fine-tuning script (`finetune.py`).  The pipeline is embedded
shallowly: the tokenizer is an abstract encoding capability, token sequences
are lists of integers, and every function of the script that the claims
mention is translated into an executable Lean definition.
-/

/-- Sentinel label value excluded from loss computation (`IGNORE_INDEX = -100`). -/
def IGNORE_INDEX : Int := -100

/-- Embeds `build_instruction_prompt`: substitutes the instruction into the
fixed two-line template of the script. -/
def build_instruction_prompt (instruction : String) : String :=
  "# This is the assembly code:\n" ++ instruction ++ "\n# What is the source code?\n"

/-- Abstract tokenizer capability used by the preprocessing pipeline:
an encoding function from strings to token-id sequences, a truncation limit
(`model_max_length`), a pad token id and the end-of-sequence token text. -/
structure Tokenizer where
  encode : String → List Int
  model_max_length : Nat
  pad_token_id : Int
  eos_token : String

/-- Tokenization of a single string as performed inside `_tokenize_fn`:
the tokenizer is called on one text with `truncation=True` and
`max_length = model_max_length` (padding to "longest" over a singleton batch
adds nothing), so the result is the encoding truncated to the limit. -/
def tokenize_one (tok : Tokenizer) (text : String) : List Int :=
  (tok.encode text).take tok.model_max_length

/-- Length reported by `_tokenize_fn` for one string:
`tokenized.input_ids.ne(tokenizer.pad_token_id).sum().item()`, i.e. the number
of tokens of the truncated encoding that differ from the pad token id. -/
def input_ids_len (tok : Tokenizer) (text : String) : Nat :=
  ((tokenize_one tok text).filter (fun id => id ≠ tok.pad_token_id)).length

/-- Result record of `_tokenize_fn`.  In the script `input_ids` and `labels`
are the same list object, and likewise `input_ids_lens` and `labels_lens`. -/
structure TokenizeFnResult where
  input_ids : List (List Int)
  labels : List (List Int)
  input_ids_lens : List Nat
  labels_lens : List Nat

/-- Embeds `_tokenize_fn`: tokenizes each string and records the non-pad
token counts; `labels` aliases `input_ids` and `labels_lens` aliases
`input_ids_lens`. -/
def tokenize_fn (tok : Tokenizer) (strings : List String) : TokenizeFnResult :=
  let ids := strings.map (tokenize_one tok)
  let lens := strings.map (input_ids_len tok)
  { input_ids := ids, labels := ids, input_ids_lens := lens, labels_lens := lens }

/-- Embeds the tensor slice assignment `label[:source_len] = IGNORE_INDEX`:
the first `min n (length label)` positions become `IGNORE_INDEX`, the rest
keep their values. -/
def write_ignore_span (label : List Int) (n : Nat) : List Int :=
  List.replicate (min n label.length) IGNORE_INDEX ++ label.drop n

/-- Embeds the masking loop
`for label, source_len in zip(labels, sources_tokenized["input_ids_lens"])`:
paired elements are masked in place, and labels without a matching length
(the zip stops at the shorter sequence) are left untouched. -/
def mask_labels : List (List Int) → List Nat → List (List Int)
  | [], _ => []
  | l :: ls, [] => l :: ls
  | l :: ls, n :: ns => write_ignore_span l n :: mask_labels ls ns

/-- Result record of `preprocess`. -/
structure PreprocessResult where
  input_ids : List (List Int)
  labels : List (List Int)

/-- Embeds `preprocess`: concatenates each source with its target (Python
`zip` truncates to the shorter sequence), tokenizes concatenations and
sources, deep-copies the concatenation ids into labels and overwrites each
label's first `source_len` positions with `IGNORE_INDEX`. -/
def preprocess (tok : Tokenizer) (sources targets : List String) : PreprocessResult :=
  let examples := (sources.zip targets).map (fun p => p.1 ++ p.2)
  let examples_tokenized := tokenize_fn tok examples
  let sources_tokenized := tokenize_fn tok sources
  let input_ids := examples_tokenized.input_ids
  let labels := mask_labels input_ids sources_tokenized.input_ids_lens
  { input_ids := input_ids, labels := labels }

/-- Length of the longest sequence in a list, 0 for the empty list. -/
def max_len (seqs : List (List Int)) : Nat :=
  (seqs.map List.length).foldr max 0

/-- Embeds `torch.nn.utils.rnn.pad_sequence(. , batch_first=True, padding_value=v)`:
every sequence is right-padded with `v` to the length of the longest one. -/
def pad_sequence (seqs : List (List Int)) (v : Int) : List (List Int) :=
  seqs.map (fun xs => xs ++ List.replicate (max_len seqs - xs.length) v)

/-- Batch record returned by the collator. -/
structure Batch where
  input_ids : List (List Int)
  labels : List (List Int)
  attention_mask : List (List Bool)

/-- Embeds `DataCollatorForSupervisedDataset.__call__`: splits the instances
into `input_ids` and `labels`, pads the former with the pad token id and the
latter with `IGNORE_INDEX`, and computes the attention mask as
`input_ids.ne(pad_token_id)` over the padded ids. -/
def collate (tok : Tokenizer) (instances : List (List Int × List Int)) : Batch :=
  let input_ids := instances.map Prod.fst
  let labels := instances.map Prod.snd
  let padded_ids := pad_sequence input_ids tok.pad_token_id
  let padded_labels := pad_sequence labels IGNORE_INDEX
  { input_ids := padded_ids
    labels := padded_labels
    attention_mask := padded_ids.map (fun row => row.map (fun v => decide (v ≠ tok.pad_token_id))) }

/-- Raw dataset batch handed to `train_tokenize_function`: parallel columns
`instruction` and `output`. -/
structure RawBatch where
  instruction : List String
  output : List String

/-- Embeds `train_tokenize_function`: builds the prompts from the
instructions, appends a newline and the end-of-sequence token to each output,
and runs `preprocess`. -/
def train_tokenize_function (tok : Tokenizer) (examples : RawBatch) : PreprocessResult :=
  let sources := examples.instruction.map build_instruction_prompt
  let eos_token := tok.eos_token
  let targets := examples.output.map (fun output => output ++ "\n" ++ eos_token)
  preprocess tok sources targets

/-- Observable tokenizer attributes that the pad-token setup in `train`
touches; each may be absent, as in the host library. -/
structure TokenizerConfig where
  pad_token : Option String
  pad_token_id : Option Int
  eos_token : Option String
  eos_token_id : Option Int

/-- Embeds the pad-token setup of `train`:
`if tokenizer.pad_token is None: tokenizer.pad_token = tokenizer.eos_token;
tokenizer.pad_token_id = tokenizer.eos_token_id`. -/
def resolve_pad_token (t : TokenizerConfig) : TokenizerConfig :=
  if t.pad_token = none then
    { t with pad_token := t.eos_token, pad_token_id := t.eos_token_id }
  else t

/-- Concrete tokenizer for evaluation: each character becomes its code point,
the truncation limit is the script's default 512, and the pad token id is 0,
a value no character of the test strings maps to. -/
def charTok : Tokenizer :=
  { encode := fun s => s.data.map (fun c => (c.toNat : Int))
    model_max_length := 512
    pad_token_id := 0
    eos_token := "E" }

/-- Concrete tokenizer whose pad token id collides with the code point of
the letter a (97), as happens when the pad token is aliased to a token that
can also occur inside the text. -/
def charTokPadA : Tokenizer :=
  { encode := fun s => s.data.map (fun c => (c.toNat : Int))
    model_max_length := 512
    pad_token_id := 97
    eos_token := "E" }

/-- Concrete tokenizer with a truncation limit of 2, to exercise the case
where the prompt alone fills the truncation budget. -/
def charTokTrunc : Tokenizer :=
  { encode := fun s => s.data.map (fun c => (c.toNat : Int))
    model_max_length := 2
    pad_token_id := 0
    eos_token := "E" }

/-- Tokenizer configuration with no pad token. -/
def cfgNoPad : TokenizerConfig :=
  { pad_token := none, pad_token_id := none
    eos_token := some "<e>", eos_token_id := some 7 }

/-- Tokenizer configuration with a pad token already present. -/
def cfgPad : TokenizerConfig :=
  { pad_token := some "<p>", pad_token_id := some 3
    eos_token := some "<e>", eos_token_id := some 7 }

/-- Concrete collator input with sequence lengths 3, 5 and 2, no token equal
to the pad id 0 of `charTok`. -/
def inst0 : List (List Int × List Int) :=
  [([1, 2, 3], [1, 2, 3]), ([4, 5, 6, 7, 8], [4, 5, 6, 7, 8]), ([9, 10], [9, 10])]

/-! Helper lemmas about the embedded operations. -/

lemma write_ignore_span_length (l : List Int) (n : Nat) :
    (write_ignore_span l n).length = l.length := by
  simp [write_ignore_span]
  omega

lemma write_ignore_span_of_le (l : List Int) (n : Nat) (h : n ≤ l.length) :
    write_ignore_span l n = List.replicate n IGNORE_INDEX ++ l.drop n := by
  simp [write_ignore_span, Nat.min_eq_left h]

lemma write_ignore_span_all (l : List Int) (n : Nat) (h : l.length ≤ n) :
    write_ignore_span l n = List.replicate l.length IGNORE_INDEX := by
  simp [write_ignore_span, Nat.min_eq_right h, List.drop_eq_nil_of_le h]

lemma mask_labels_length (ls : List (List Int)) (ns : List Nat) :
    (mask_labels ls ns).length = ls.length := by
  induction ls generalizing ns with
  | nil => simp [mask_labels]
  | cons l ls ih =>
    cases ns with
    | nil => simp [mask_labels]
    | cons n ns => simp [mask_labels, ih]

lemma zip_self_eq {α : Type} (l : List α) : ∀ p ∈ l.zip l, p.1 = p.2 := by
  induction l with
  | nil => simp
  | cons a l ih =>
    intro p hp
    simp only [List.zip_cons_cons, List.mem_cons] at hp
    rcases hp with hp | hp
    · simp [hp]
    · exact ih p hp

lemma mem_zip_map {α β : Type} (f : α → β) (l : List α) :
    ∀ p ∈ l.zip (l.map f), p.2 = f p.1 := by
  induction l with
  | nil => simp
  | cons a l ih =>
    intro p hp
    simp only [List.map_cons, List.zip_cons_cons, List.mem_cons] at hp
    rcases hp with hp | hp
    · simp [hp]
    · exact ih p hp

lemma zip_mask_labels_length (ls : List (List Int)) (ns : List Nat) :
    ∀ p ∈ ls.zip (mask_labels ls ns), p.1.length = p.2.length := by
  induction ls generalizing ns with
  | nil => simp
  | cons l ls ih =>
    cases ns with
    | nil =>
      intro p hp
      simp only [mask_labels] at hp
      rw [zip_self_eq _ p hp]
    | cons n ns =>
      intro p hp
      simp only [mask_labels, List.zip_cons_cons, List.mem_cons] at hp
      rcases hp with hp | hp
      · rw [hp]
        exact (write_ignore_span_length l n).symm
      · exact ih ns p hp

lemma max_len_cons (x : List Int) (xs : List (List Int)) :
    max_len (x :: xs) = max x.length (max_len xs) := rfl

lemma length_le_max_len (seqs : List (List Int)) (l : List Int) (h : l ∈ seqs) :
    l.length ≤ max_len seqs := by
  induction seqs with
  | nil => simp at h
  | cons x xs ih =>
    rw [max_len_cons]
    rcases List.mem_cons.mp h with h | h
    · rw [h]
      exact le_max_left _ _
    · exact le_trans (ih h) (le_max_right _ _)

lemma max_len_congr (instances : List (List Int × List Int))
    (h : ∀ p ∈ instances, p.1.length = p.2.length) :
    max_len (instances.map Prod.snd) = max_len (instances.map Prod.fst) := by
  induction instances with
  | nil => rfl
  | cons p ps ih =>
    have h1 : p.1.length = p.2.length := h p (List.mem_cons_self p ps)
    have h2 := ih (fun q hq => h q (List.mem_cons_of_mem p hq))
    rw [List.map_cons, List.map_cons, max_len_cons, max_len_cons, h1, h2]

lemma takeWhile_replicate_append (p : Int → Bool) (a : Int) (ha : p a = true)
    (k : Nat) (l : List Int) :
    (List.replicate k a ++ l).takeWhile p = List.replicate k a ++ l.takeWhile p := by
  induction k with
  | zero => simp
  | succ k ih => simp [List.replicate_succ, List.takeWhile_cons, ha, ih]

lemma takeWhile_eq_nil (p : Int → Bool) (l : List Int) (h : ∀ x ∈ l, p x = false) :
    l.takeWhile p = [] := by
  cases l with
  | nil => rfl
  | cons a l => simp [List.takeWhile_cons, h a (List.mem_cons_self a l)]

lemma preprocess_single (tok : Tokenizer) (s t : String) :
    preprocess tok [s] [t]
      = { input_ids := [tokenize_one tok (s ++ t)],
          labels := [write_ignore_span (tokenize_one tok (s ++ t)) (input_ids_len tok s)] } := rfl

lemma preprocess_input_ids_eq (tok : Tokenizer) (sources targets : List String) :
    (preprocess tok sources targets).input_ids
      = (sources.zip targets).map (fun p => tokenize_one tok (p.1 ++ p.2)) := by
  simp [preprocess, tokenize_fn, List.map_map]

lemma pad_sequence_row_length (seqs : List (List Int)) (v : Int) :
    ∀ row ∈ pad_sequence seqs v, row.length = max_len seqs := by
  intro row hr
  rcases List.mem_map.mp hr with ⟨xs, hxs, rfl⟩
  have hle := length_le_max_len seqs xs hxs
  simp only [List.length_append, List.length_replicate]
  omega

/-! Claim theorems. -/

/-- C3: `build_instruction_prompt` equals the fixed template with the
instruction substituted, so it is non-empty and contains the instruction
verbatim; on "MOV EAX, 1" it returns the expected prompt. -/
theorem build_instruction_prompt_spec (instruction : String) :
    build_instruction_prompt instruction
      = "# This is the assembly code:\n" ++ instruction ++ "\n# What is the source code?\n"
    ∧ build_instruction_prompt instruction ≠ ""
    ∧ (∃ a b, build_instruction_prompt instruction = a ++ instruction ++ b)
    ∧ build_instruction_prompt "MOV EAX, 1"
      = "# This is the assembly code:\nMOV EAX, 1\n# What is the source code?\n" := by
  refine ⟨rfl, ?_, ⟨_, _, rfl⟩, rfl⟩
  intro h
  have hl := congrArg String.length h
  simp only [build_instruction_prompt, String.length_append] at hl
  rw [show ("# This is the assembly code:\n" : String).length = 29 from rfl,
      show ("\n# What is the source code?\n" : String).length = 28 from rfl,
      show ("" : String).length = 0 from rfl] at hl
  omega

/-- C5: every tokenized example produced by `preprocess` satisfies
`len(input_ids) = len(labels)`, and the two output columns have the same
number of rows. -/
theorem preprocess_length_invariant (tok : Tokenizer) (sources targets : List String) :
    (preprocess tok sources targets).labels.length
      = (preprocess tok sources targets).input_ids.length
    ∧ ∀ p ∈ (preprocess tok sources targets).input_ids.zip
          (preprocess tok sources targets).labels,
        p.1.length = p.2.length :=
  ⟨mask_labels_length _ _, zip_mask_labels_length _ _⟩

/-- C6: `preprocess` is deterministic — two runs on equal source and target
sequences with the same tokenizer produce identical `input_ids` and identical
`labels`. -/
theorem preprocess_deterministic (tok : Tokenizer) (ss ts ss2 ts2 : List String)
    (h1 : ss = ss2) (h2 : ts = ts2) :
    (preprocess tok ss ts).input_ids = (preprocess tok ss2 ts2).input_ids
    ∧ (preprocess tok ss ts).labels = (preprocess tok ss2 ts2).labels := by
  subst h1
  subst h2
  exact ⟨rfl, rfl⟩

/-- Witness for C6 at a concrete tokenizer and a concrete pair. -/
theorem preprocess_deterministic_witness :
    (["p"] : List String) = ["p"] ∧ (["t"] : List String) = ["t"]
    ∧ ((preprocess charTok ["p"] ["t"]).input_ids
          = (preprocess charTok ["p"] ["t"]).input_ids
       ∧ (preprocess charTok ["p"] ["t"]).labels
          = (preprocess charTok ["p"] ["t"]).labels) :=
  ⟨rfl, rfl, preprocess_deterministic charTok ["p"] ["t"] ["p"] ["t"] rfl rfl⟩

/-- C7: the pad-token setup substitutes the end-of-sequence token exactly
when the pad token is missing, and leaves the tokenizer unchanged when a pad
token is already present. -/
theorem resolve_pad_token_spec (t : TokenizerConfig) :
    (t.pad_token = none →
      resolve_pad_token t
        = { t with pad_token := t.eos_token, pad_token_id := t.eos_token_id })
    ∧ (t.pad_token ≠ none → resolve_pad_token t = t) := by
  constructor
  · intro h
    simp [resolve_pad_token, h]
  · intro h
    simp [resolve_pad_token, h]

/-- Witness for C7 on a configuration without and one with a pad token. -/
theorem resolve_pad_token_spec_witness :
    (cfgNoPad.pad_token = none
      ∧ resolve_pad_token cfgNoPad
          = { cfgNoPad with
                pad_token := cfgNoPad.eos_token, pad_token_id := cfgNoPad.eos_token_id })
    ∧ (cfgPad.pad_token ≠ none ∧ resolve_pad_token cfgPad = cfgPad) :=
  ⟨⟨rfl, (resolve_pad_token_spec cfgNoPad).1 rfl⟩,
   ⟨by decide, (resolve_pad_token_spec cfgPad).2 (by decide)⟩⟩

/-- C8: `train_tokenize_function` hands `preprocess` the prompts built by
`build_instruction_prompt` from the instructions and, as targets, each output
followed by a newline and the end-of-sequence token; for a single raw example
the resulting `input_ids` are the tokenization of that concatenation. -/
theorem train_tokenize_function_spec (tok : Tokenizer) (examples : RawBatch)
    (ins output : String) :
    train_tokenize_function tok examples
      = preprocess tok (examples.instruction.map build_instruction_prompt)
          (examples.output.map (fun output => output ++ "\n" ++ tok.eos_token))
    ∧ (train_tokenize_function tok { instruction := [ins], output := [output] }).input_ids
      = [tokenize_one tok (build_instruction_prompt ins ++ (output ++ "\n" ++ tok.eos_token))] :=
  ⟨rfl, rfl⟩

/-- C10: the `input_ids` returned by `preprocess` are the raw tokenizations
of the concatenated prompt and target, untouched by the label-masking step
that overwrites prefixes of the (deep-copied) `labels`. -/
theorem preprocess_input_ids_unchanged (tok : Tokenizer) (sources targets : List String) :
    (preprocess tok sources targets).input_ids
      = (sources.zip targets).map (fun p => tokenize_one tok (p.1 ++ p.2)) :=
  preprocess_input_ids_eq tok sources targets

/-- C4: when the computed prompt length reaches or exceeds the length of the
tokenized concatenation, `preprocess` still succeeds and every label position
is `IGNORE_INDEX`. -/
theorem preprocess_degenerate_all_ignore (tok : Tokenizer) (s t : String)
    (h : (tokenize_one tok (s ++ t)).length ≤ input_ids_len tok s) :
    ∀ lbl ∈ (preprocess tok [s] [t]).labels, ∀ v ∈ lbl, v = IGNORE_INDEX := by
  intro lbl hl v hv
  rw [preprocess_single] at hl
  simp only [List.mem_singleton] at hl
  subst hl
  rw [write_ignore_span_all _ _ h] at hv
  exact List.eq_of_mem_replicate hv

/-- Witness for C4: with a truncation limit of 2, the prompt "ab" alone fills
the budget of the pair ("ab", "c") and all labels come out as IGNORE. -/
theorem preprocess_degenerate_all_ignore_witness :
    ((tokenize_one charTokTrunc ("ab" ++ "c")).length ≤ input_ids_len charTokTrunc "ab")
    ∧ (∀ lbl ∈ (preprocess charTokTrunc ["ab"] ["c"]).labels, ∀ v ∈ lbl, v = IGNORE_INDEX) :=
  ⟨by decide, preprocess_degenerate_all_ignore charTokTrunc "ab" "c" (by decide)⟩

/-- Counterexample to C1 as stated: with the pad token id equal to the code
of the letter a, the prompt "ab" tokenizes to [97, 98] (raw length P = 2) and
the concatenation "abc" to [97, 98, 99] (L = 3), so P ≤ L; yet the labels are
[-100, 98, 99], whose IGNORE prefix has length 1, not P — the code masks only
as many positions as there are non-pad prompt tokens. -/
theorem preprocess_mask_raw_length_false :
    (tokenize_one charTokPadA "ab").length
        ≤ (tokenize_one charTokPadA ("ab" ++ "c")).length
    ∧ (preprocess charTokPadA ["ab"] ["c"]).labels = [[-100, 98, 99]]
    ∧ ¬ (∀ lbl ∈ (preprocess charTokPadA ["ab"] ["c"]).labels,
          lbl.take (tokenize_one charTokPadA "ab").length
            = List.replicate (tokenize_one charTokPadA "ab").length IGNORE_INDEX) := by
  decide

/-- C1 (amended): let P be the number of tokens of the tokenized prompt that
differ from the pad token id.  If P is at most the tokenized concatenation
length and no concatenation token equals IGNORE, then the labels produced by
`preprocess` carry exactly P IGNORE values as a prefix and agree with
`input_ids` from position P on. -/
theorem preprocess_mask_by_nonpad_count (tok : Tokenizer) (s t : String)
    (hP : input_ids_len tok s ≤ (tokenize_one tok (s ++ t)).length)
    (hnn : ∀ id ∈ tokenize_one tok (s ++ t), id ≠ IGNORE_INDEX) :
    ∃ lbl, (preprocess tok [s] [t]).labels = [lbl]
      ∧ lbl.take (input_ids_len tok s)
          = List.replicate (input_ids_len tok s) IGNORE_INDEX
      ∧ lbl.drop (input_ids_len tok s)
          = (tokenize_one tok (s ++ t)).drop (input_ids_len tok s)
      ∧ (lbl.takeWhile (fun v => decide (v = IGNORE_INDEX))).length
          = input_ids_len tok s := by
  refine ⟨write_ignore_span (tokenize_one tok (s ++ t)) (input_ids_len tok s),
    by rw [preprocess_single], ?_, ?_, ?_⟩
  · rw [write_ignore_span_of_le _ _ hP]
    exact List.take_left' (List.length_replicate _ _)
  · rw [write_ignore_span_of_le _ _ hP]
    exact List.drop_left' (List.length_replicate _ _)
  · rw [write_ignore_span_of_le _ _ hP,
      takeWhile_replicate_append (fun v => decide (v = IGNORE_INDEX)) IGNORE_INDEX
        (by simp) _ _,
      takeWhile_eq_nil _ _
        (fun x hx => decide_eq_false (hnn x (List.mem_of_mem_drop hx)))]
    simp

/-- Witness for the amended C1 on the pair ("ab", "c") with character
tokenization and pad id 0. -/
theorem preprocess_mask_by_nonpad_count_witness :
    (input_ids_len charTok "ab" ≤ (tokenize_one charTok ("ab" ++ "c")).length)
    ∧ (∀ id ∈ tokenize_one charTok ("ab" ++ "c"), id ≠ IGNORE_INDEX)
    ∧ ∃ lbl, (preprocess charTok ["ab"] ["c"]).labels = [lbl]
        ∧ lbl.take (input_ids_len charTok "ab")
            = List.replicate (input_ids_len charTok "ab") IGNORE_INDEX
        ∧ lbl.drop (input_ids_len charTok "ab")
            = (tokenize_one charTok ("ab" ++ "c")).drop (input_ids_len charTok "ab")
        ∧ (lbl.takeWhile (fun v => decide (v = IGNORE_INDEX))).length
            = input_ids_len charTok "ab" :=
  ⟨by decide, by decide,
   preprocess_mask_by_nonpad_count charTok "ab" "c" (by decide) (by decide)⟩

/-- C9: the prompt length used for masking counts the non-pad tokens of the
tokenized prompt; when the tokenized prompt contains a token equal to the pad
id, that count is strictly below the raw tokenized prompt length, the label
prefix written is the one for that count, and the IGNORE prefix of the labels
is strictly shorter than the tokenized prompt. -/
theorem source_len_counts_nonpad_tokens (tok : Tokenizer) (s t : String)
    (hpad : tok.pad_token_id ∈ tokenize_one tok s)
    (hnn : ∀ id ∈ tokenize_one tok (s ++ t), id ≠ IGNORE_INDEX) :
    input_ids_len tok s < (tokenize_one tok s).length
    ∧ (preprocess tok [s] [t]).labels
        = [write_ignore_span (tokenize_one tok (s ++ t)) (input_ids_len tok s)]
    ∧ ∀ lbl ∈ (preprocess tok [s] [t]).labels,
        (lbl.takeWhile (fun v => decide (v = IGNORE_INDEX))).length
          < (tokenize_one tok s).length := by
  have h1 : input_ids_len tok s < (tokenize_one tok s).length := by
    apply List.length_filter_lt_length_iff_exists.mpr
    exact ⟨tok.pad_token_id, hpad, by simp⟩
  refine ⟨h1, by rw [preprocess_single], ?_⟩
  intro lbl hl
  rw [preprocess_single] at hl
  simp only [List.mem_singleton] at hl
  subst hl
  simp only [write_ignore_span]
  rw [takeWhile_replicate_append (fun v => decide (v = IGNORE_INDEX)) IGNORE_INDEX
        (by simp) _ _,
      takeWhile_eq_nil _ _
        (fun x hx => decide_eq_false (hnn x (List.mem_of_mem_drop hx)))]
  simp only [List.append_nil, List.length_replicate]
  exact lt_of_le_of_lt (Nat.min_le_left _ _) h1

/-- Witness for C9: pad id 97 collides with the letter a of the prompt "ab". -/
theorem source_len_counts_nonpad_tokens_witness :
    (charTokPadA.pad_token_id ∈ tokenize_one charTokPadA "ab")
    ∧ (∀ id ∈ tokenize_one charTokPadA ("ab" ++ "c"), id ≠ IGNORE_INDEX)
    ∧ (input_ids_len charTokPadA "ab" < (tokenize_one charTokPadA "ab").length
       ∧ (preprocess charTokPadA ["ab"] ["c"]).labels
           = [write_ignore_span (tokenize_one charTokPadA ("ab" ++ "c"))
                (input_ids_len charTokPadA "ab")]
       ∧ ∀ lbl ∈ (preprocess charTokPadA ["ab"] ["c"]).labels,
           (lbl.takeWhile (fun v => decide (v = IGNORE_INDEX))).length
             < (tokenize_one charTokPadA "ab").length) :=
  ⟨by decide, by decide,
   source_len_counts_nonpad_tokens charTokPadA "ab" "c" (by decide) (by decide)⟩

/-- C2: for tokenized examples with equal `input_ids` and `labels` lengths,
the collator returns rectangular tensors with one row per instance and width
equal to the longest `input_ids`; `input_ids` rows are right-padded with the
pad token id, `labels` rows with IGNORE, and the attention mask is true
exactly at padded-id positions differing from the pad token id. -/
theorem collate_padded_batch_spec (tok : Tokenizer)
    (instances : List (List Int × List Int))
    (_hne : instances ≠ [])
    (hlen : ∀ p ∈ instances, p.1.length = p.2.length) :
    (collate tok instances).input_ids.length = instances.length
    ∧ (collate tok instances).labels.length = instances.length
    ∧ (collate tok instances).attention_mask.length = instances.length
    ∧ (∀ row ∈ (collate tok instances).input_ids,
        row.length = max_len (instances.map Prod.fst))
    ∧ (∀ row ∈ (collate tok instances).labels,
        row.length = max_len (instances.map Prod.fst))
    ∧ (∀ row ∈ (collate tok instances).attention_mask,
        row.length = max_len (instances.map Prod.fst))
    ∧ (collate tok instances).input_ids
        = instances.map (fun p =>
            p.1 ++ List.replicate
              (max_len (instances.map Prod.fst) - p.1.length) tok.pad_token_id)
    ∧ (collate tok instances).labels
        = instances.map (fun p =>
            p.2 ++ List.replicate
              (max_len (instances.map Prod.fst) - p.2.length) IGNORE_INDEX)
    ∧ (∀ q ∈ (collate tok instances).input_ids.zip
          (collate tok instances).attention_mask,
        ∀ r ∈ q.1.zip q.2, (r.2 = true ↔ r.1 ≠ tok.pad_token_id)) := by
  refine ⟨?_, ?_, ?_, ?_, ?_, ?_, ?_, ?_, ?_⟩
  · simp [collate, pad_sequence]
  · simp [collate, pad_sequence]
  · simp [collate, pad_sequence]
  · exact pad_sequence_row_length (instances.map Prod.fst) tok.pad_token_id
  · intro row hr
    have h5 := pad_sequence_row_length (instances.map Prod.snd) IGNORE_INDEX row hr
    rw [max_len_congr instances hlen] at h5
    exact h5
  · intro row hr
    rcases List.mem_map.mp hr with ⟨r0, hr0, rfl⟩
    rw [List.length_map]
    exact pad_sequence_row_length (instances.map Prod.fst) tok.pad_token_id r0 hr0
  · simp [collate, pad_sequence, List.map_map, Function.comp]
  · rw [show (collate tok instances).labels
        = pad_sequence (instances.map Prod.snd) IGNORE_INDEX from rfl]
    simp only [pad_sequence, max_len_congr instances hlen, List.map_map]
    rfl
  · intro q hq
    have hids : (collate tok instances).input_ids
        = pad_sequence (instances.map Prod.fst) tok.pad_token_id := rfl
    have hmask : (collate tok instances).attention_mask
        = (pad_sequence (instances.map Prod.fst) tok.pad_token_id).map
            (fun row => row.map (fun v => decide (v ≠ tok.pad_token_id))) := rfl
    rw [hids, hmask] at hq
    have hq2 := mem_zip_map
      (fun row => row.map (fun v => decide (v ≠ tok.pad_token_id)))
      (pad_sequence (instances.map Prod.fst) tok.pad_token_id) q hq
    intro r hr
    rw [hq2] at hr
    have hr2 := mem_zip_map (fun v => decide (v ≠ tok.pad_token_id)) q.1 r hr
    rw [hr2]
    simp

/-- Witness for C2 on a batch with lengths 3, 5 and 2: the output is 3 by 5,
the first mask row is [1,1,1,0,0], and the general collation properties hold. -/
theorem collate_padded_batch_spec_witness :
    (inst0 ≠ [])
    ∧ (∀ p ∈ inst0, p.1.length = p.2.length)
    ∧ (collate charTok inst0).input_ids
        = [[1, 2, 3, 0, 0], [4, 5, 6, 7, 8], [9, 10, 0, 0, 0]]
    ∧ (collate charTok inst0).attention_mask
        = [[true, true, true, false, false],
           [true, true, true, true, true],
           [true, true, false, false, false]]
    ∧ max_len (inst0.map Prod.fst) = 5
    ∧ ((collate charTok inst0).input_ids.length = inst0.length
       ∧ (collate charTok inst0).labels.length = inst0.length
       ∧ (collate charTok inst0).attention_mask.length = inst0.length
       ∧ (∀ row ∈ (collate charTok inst0).input_ids,
           row.length = max_len (inst0.map Prod.fst))
       ∧ (∀ row ∈ (collate charTok inst0).labels,
           row.length = max_len (inst0.map Prod.fst))
       ∧ (∀ row ∈ (collate charTok inst0).attention_mask,
           row.length = max_len (inst0.map Prod.fst))
       ∧ (collate charTok inst0).input_ids
           = inst0.map (fun p =>
               p.1 ++ List.replicate
                 (max_len (inst0.map Prod.fst) - p.1.length) charTok.pad_token_id)
       ∧ (collate charTok inst0).labels
           = inst0.map (fun p =>
               p.2 ++ List.replicate
                 (max_len (inst0.map Prod.fst) - p.2.length) IGNORE_INDEX)
       ∧ (∀ q ∈ (collate charTok inst0).input_ids.zip
             (collate charTok inst0).attention_mask,
           ∀ r ∈ q.1.zip q.2, (r.2 = true ↔ r.1 ≠ charTok.pad_token_id))) :=
  ⟨by decide, by decide, by decide, by decide, by decide,
   collate_padded_batch_spec charTok inst0 (by decide) (by decide)⟩
